import Mathlib

/-!
Verification of the cTCP reference implementation in src/ctcp.c.

The C code is embedded shallowly: machine integers become Nat (times and
timeouts become Int, since rt_timeout is a C int and times are longs),
heap-allocated segments become a Lean structure, the intrusive linked list
of unacknowledged segments becomes a Lean List kept in insertion order
(ll_add appends at the tail), and the side effects conn_send, conn_output
and connection destruction become an explicit trace of actions.  Fallible
operations return Option.  Byte-order conversions htonl and ntohl cancel
in pairs and are modelled as the identity.
-/

set_option maxRecDepth 8000

namespace CTCP

/-- Modelled from the spec and framework headers (ctcp.h is not under src/):
the maximum payload bytes per segment, MAX_SEG_DATA_SIZE.  Its concrete
value does not matter for any claim; the usual cTCP value is 1440. -/
def MAX_SEG_DATA_SIZE : Nat := 1440

/-- Modelled from the spec (ctcp_sys.h is not under src/): the size of the
fixed segment header, sizeof(ctcp_segment_t), equal to the wire header of
section 6 of the design: seqno 4 + ackno 4 + len 2 + flags 1 + window 2 +
cksum 2 = 15 bytes.  No claim depends on the concrete value. -/
def HDR : Nat := 15

/-- Modelled from tcp.h via ctcp_sys.h (not under src/): the FIN flag bit.
Only its distinctness from TH_ACK matters. -/
def TH_FIN : Nat := 1

/-- Modelled from tcp.h via ctcp_sys.h (not under src/): the ACK flag bit. -/
def TH_ACK : Nat := 16

/-- The in-memory segment record, ctcp_segment_t.  The wire checksum is
computed at encode time and verified and discarded at decode time; ctcp.c
itself never reads or writes the cksum field, so it is not carried here. -/
structure ctcp_segment where
  seqno : Nat
  ackno : Nat
  len : Nat
  flags : Nat
  window : Nat
  data : List Nat
  deriving DecidableEq

/-- Connection configuration, ctcp_config_t: window sizes in segments and
the retransmission timeout. -/
structure ctcp_config where
  send_window : Nat
  recv_window : Nat
  rt_timeout : Int
  deriving DecidableEq

/-- Connection state, struct ctcp_state in ctcp.c.  The intrusive
next and prev registry pointers and the conn handle are not part of the
per-connection protocol state; the registry is modelled as a list of
states where needed. -/
structure ctcp_state where
  seqno : Nat
  ackno : Nat
  send_base : Nat
  recv_base : Nat
  send_window : Nat
  recv_window : Nat
  rt_timeout : Int
  retransmit_count : Nat
  last_sent_time : Int
  segments : List ctcp_segment
  deriving DecidableEq

/-- Observable side effects of the C code: conn_send of a segment,
conn_output of payload bytes to the application sink, conn_output with
length 0 (the end-of-input signal), and connection destruction
(conn_remove, ll_destroy, free). -/
inductive Action where
  | send : ctcp_segment → Action
  | output : List Nat → Action
  | outputEOF : Action
  | destroy : Action
  deriving DecidableEq

/-- One result of a conn_input call inside ctcp_read: a chunk of bytes
(positive return), end of input (-1), or nothing available (0). -/
inductive InputEvent where
  | chunk : List Nat → InputEvent
  | eof : InputEvent
  | wouldBlock : InputEvent
  deriving DecidableEq

/-- Well-formedness of a conn_input result: a chunk is nonempty (a zero
return is wouldBlock) and at most the buffer size MAX_SEG_DATA_SIZE. -/
def InputEvent.wf : InputEvent → Prop
  | .chunk b => b ≠ [] ∧ b.length ≤ MAX_SEG_DATA_SIZE
  | .eof => True
  | .wouldBlock => True

instance (ev : InputEvent) : Decidable ev.wf := by
  cases ev <;> simp [InputEvent.wf] <;> infer_instance

/-- ctcp_init, lines 50-73: rejects only a NULL conn; calloc zeroes the
record, then the windows are set in bytes, seqno, send_base and recv_base
start at 1, and the segment list starts empty.  The configuration is not
validated. -/
def ctcp_init (conn_null : Bool) (cfg : ctcp_config) : Option ctcp_state :=
  if conn_null then none
  else some
    { seqno := 1
      ackno := 0
      send_base := 1
      recv_base := 1
      send_window := cfg.send_window * MAX_SEG_DATA_SIZE
      recv_window := cfg.recv_window * MAX_SEG_DATA_SIZE
      rt_timeout := cfg.rt_timeout
      retransmit_count := 0
      last_sent_time := 0
      segments := [] }

/-- ctcp_destroy, lines 76-83: unlinks the state from the registry,
conn_remove, ll_destroy, free.  Its observable trace is a single destroy
action; in particular it performs no conn_output, so no end-of-input
signal reaches the application sink. -/
def ctcp_destroy : List Action := [Action.destroy]

/-- ctcp_read, lines 85-112: while seqno < send_base + send_window, call
conn_input.  A zero return breaks; -1 sends a zero-payload FIN at the
current seqno, advances seqno by 1 and returns; a positive return builds
a data segment (calloc zeroes it, so flags = 0 and window = 0) with
len = header + bytes_read, sends it, appends it to the segment list,
advances seqno by bytes_read and records last_sent_time.  The successive
conn_input results are supplied as a list; an exhausted list behaves as a
zero return. -/
def ctcp_read (st : ctcp_state) (ins : List InputEvent) (now : Int) :
    ctcp_state × List Action :=
  match ins with
  | [] => (st, [])
  | ev :: rest =>
    if st.seqno < st.send_base + st.send_window then
      match ev with
      | .wouldBlock => (st, [])
      | .eof =>
        ({ st with seqno := st.seqno + 1 },
         [Action.send
            { seqno := st.seqno, ackno := 0, len := HDR, flags := TH_FIN,
              window := 0, data := [] }])
      | .chunk b =>
        let seg : ctcp_segment :=
          { seqno := st.seqno, ackno := 0, len := HDR + b.length, flags := 0,
            window := 0, data := b }
        let st1 : ctcp_state :=
          { st with segments := st.segments ++ [seg],
                    seqno := st.seqno + b.length,
                    last_sent_time := now }
        let r := ctcp_read st1 rest now
        (r.1, Action.send seg :: r.2)
    else (st, [])

/-- The ACK pruning loop of ctcp_receive, lines 124-132: repeatedly remove
and free the front segment while its seqno is below the ackno, stopping at
the first front segment whose seqno is not. -/
def prune (ackno : Nat) : List ctcp_segment → List ctcp_segment
  | [] => []
  | s :: rest => if s.seqno < ackno then prune ackno rest else s :: rest

/-- ctcp_receive, lines 114-154.  ACK flag with ackno > send_base advances
send_base to ackno and prunes the front of the segment list by
seqno < ackno.  A total length above the header outputs data_len =
len - header payload bytes to the sink and sends one ACK segment whose
ackno is seqno + data_len (the zeroed struct leaves its seqno and window
at 0).  A FIN flag, regardless of seqno, outputs the end-of-input signal
and destroys the connection.  Returns none when destroyed. -/
def ctcp_receive (st : ctcp_state) (seg : ctcp_segment) (len : Nat) :
    Option ctcp_state × List Action :=
  let st1 : ctcp_state :=
    if seg.flags &&& TH_ACK ≠ 0 then
      if st.send_base < seg.ackno then
        { st with send_base := seg.ackno, segments := prune seg.ackno st.segments }
      else st
    else st
  let acts1 : List Action :=
    if HDR < len then
      [Action.output (seg.data.take (len - HDR)),
       Action.send
         { seqno := 0, ackno := seg.seqno + (len - HDR), len := HDR,
           flags := TH_ACK, window := 0, data := [] }]
    else []
  if seg.flags &&& TH_FIN ≠ 0 then
    (none, acts1 ++ [Action.outputEOF] ++ ctcp_destroy)
  else (some st1, acts1)

/-- The drain loop of ctcp_output, lines 157-171: while the front segment
of the list has seqno equal to recv_base, output its data_len =
len - header payload bytes, advance recv_base by data_len, and remove it. -/
def ctcp_output_go (rb : Nat) : List ctcp_segment → List ctcp_segment × Nat × List Action
  | [] => ([], rb, [])
  | seg :: rest =>
    if seg.seqno = rb then
      let dl := seg.len - HDR
      let r := ctcp_output_go (rb + dl) rest
      (r.1, r.2.1, Action.output (seg.data.take dl) :: r.2.2)
    else (seg :: rest, rb, [])

/-- ctcp_output, lines 156-172: drains the connection segment list (the
send-side unacknowledged list, the only list the state owns) against
recv_base. -/
def ctcp_output (st : ctcp_state) : ctcp_state × List Action :=
  let r := ctcp_output_go st.recv_base st.segments
  ({ st with segments := r.1, recv_base := r.2.1 }, r.2.2)

/-- The inner loop of ctcp_timer, lines 179-193, walking one connection
segment list.  For each node: if now - last_sent_time > rt_timeout, the
segment is resent, the shared retransmit_count incremented and the shared
last_sent_time set to now; if the count has then reached maxXmits,
ctcp_destroy is called right there, inside the loop, and the loop keeps
walking (node = node->next); the freed memory is modelled as still
holding its values.  current_time_ms is modelled as the constant now
within one tick. -/
def timer_go (maxXmits : Nat) (now : Int) (st : ctcp_state) :
    List ctcp_segment → ctcp_state × List Action
  | [] => (st, [])
  | seg :: rest =>
    if st.rt_timeout < now - st.last_sent_time then
      let st1 : ctcp_state :=
        { st with retransmit_count := st.retransmit_count + 1,
                  last_sent_time := now }
      let r := timer_go maxXmits now st1 rest
      (r.1, Action.send seg ::
        (if maxXmits ≤ st1.retransmit_count then ctcp_destroy ++ r.2 else r.2))
    else timer_go maxXmits now st rest

/-- ctcp_timer restricted to one connection: walk its segment list with
timer_go; the connection survives the tick exactly when no destroy action
was emitted.  MAX_NUM_XMITS is defined in ctcp.h (not under src/) and is
passed as the maxXmits argument. -/
def ctcp_timer_conn (maxXmits : Nat) (now : Int) (st : ctcp_state) :
    Option ctcp_state × List Action :=
  let r := timer_go maxXmits now st st.segments
  (if r.2.contains Action.destroy then none else some r.1, r.2)

/-- ctcp_timer, lines 175-196: walk every live connection in the registry
list, applying the per-connection sweep; destroyed connections leave the
registry. -/
def ctcp_timer (maxXmits : Nat) (now : Int) :
    List ctcp_state → List ctcp_state × List Action
  | [] => ([], [])
  | st :: rest =>
    let r := ctcp_timer_conn maxXmits now st
    let rr := ctcp_timer maxXmits now rest
    (match r.1 with
     | some st2 => st2 :: rr.1
     | none => rr.1,
     r.2 ++ rr.2)

/-!
The Segment Codec.  Its implementation is not under src/ (ctcp.c receives
already-decoded segments and never computes a checksum), so it is modelled
from the spec, sections 4.1 and 6: a fixed 15-byte header in network byte
order (seqno 4, ackno 4, length 2, flags 1, advertised window 2, checksum
2) followed by the payload; encode computes and inserts the checksum last,
over the whole segment with the checksum field zeroed; decode rejects a
buffer shorter than the header, and a buffer whose stored checksum does
not match the recomputed one. -/

/-- Big-endian 2-byte serialization of a 16-bit value. -/
def to2 (n : Nat) : List Nat := [n / 256 % 256, n % 256]

/-- Big-endian 4-byte serialization of a 32-bit value. -/
def to4 (n : Nat) : List Nat := to2 (n / 65536) ++ to2 (n % 65536)

/-- Reconstruction of a 16-bit value from two big-endian bytes. -/
def from2 (a b : Nat) : Nat := a * 256 + b

/-- Reconstruction of a 32-bit value from four big-endian bytes. -/
def from4 (a b c d : Nat) : Nat := from2 a b * 65536 + from2 c d

/-- Modelled from the spec: the integrity checksum over header plus
payload.  The spec fixes its contract (16-bit, computed with the checksum
field zeroed) but not the algorithm; it is modelled as the byte sum
reduced to 16 bits.  No claim depends on the algorithm itself. -/
def cksum16 (bs : List Nat) : Nat := (bs.foldl Nat.add 0) % 65536

/-- The 13 header bytes before the checksum field. -/
def encHdr0 (s : ctcp_segment) : List Nat :=
  to4 s.seqno ++ to4 s.ackno ++ to2 s.len ++ [s.flags % 256] ++ to2 s.window

/-- Modelled from the spec: encode serializes the header fields in network
byte order, computes the checksum over the segment with the checksum field
zeroed, and inserts it last, before the payload bytes. -/
def encode (s : ctcp_segment) : List Nat :=
  encHdr0 s ++ to2 (cksum16 (encHdr0 s ++ 0 :: 0 :: s.data)) ++ s.data

/-- Decode failures: a buffer shorter than the header, or a checksum
mismatch. -/
inductive DecodeError where
  | malformed : DecodeError
  | checksum : DecodeError
  deriving DecidableEq

/-- Modelled from the spec: decode parses the fixed 15-byte header,
verifies the stored checksum against the checksum recomputed over the
same bytes with the checksum field zeroed, and returns the segment record
with the rest of the buffer as payload; a buffer shorter than the header
is malformed. -/
def decode (bs : List Nat) : Except DecodeError ctcp_segment :=
  match bs with
  | a0 :: a1 :: a2 :: a3 :: b0 :: b1 :: b2 :: b3 :: l0 :: l1 :: f :: w0 :: w1 :: c0 :: c1 :: rest =>
    if from2 c0 c1 ≠
        cksum16 (a0 :: a1 :: a2 :: a3 :: b0 :: b1 :: b2 :: b3 :: l0 :: l1 :: f :: w0 :: w1 :: 0 :: 0 :: rest) then
      Except.error DecodeError.checksum
    else
      Except.ok
        { seqno := from4 a0 a1 a2 a3, ackno := from4 b0 b1 b2 b3,
          len := from2 l0 l1, flags := f, window := from2 w0 w1, data := rest }
  | _ => Except.error DecodeError.malformed

/-- The checksum stored in a wire buffer, bytes 13 and 14. -/
def storedCk (bs : List Nat) : Nat := from2 (bs.getD 13 0) (bs.getD 14 0)

/-- A wire buffer with its checksum field zeroed. -/
def zeroCk (bs : List Nat) : List Nat := bs.take 13 ++ [0, 0] ++ bs.drop 15

/-- A segment is well formed when each header field fits its wire width. -/
def ctcp_segment.wf (s : ctcp_segment) : Prop :=
  s.seqno < 4294967296 ∧ s.ackno < 4294967296 ∧ s.len < 65536 ∧
  s.flags < 256 ∧ s.window < 65536

instance (s : ctcp_segment) : Decidable s.wf := by
  unfold ctcp_segment.wf; infer_instance

/-- Recognizer for conn_send actions. -/
def isSend : Action → Bool
  | .send _ => true
  | _ => false

/-- Recognizer for payload deliveries to the application sink. -/
def isOutput : Action → Bool
  | .output _ => true
  | _ => false

/-- Recognizer for the end-of-input signal to the application sink. -/
def isEOF : Action → Bool
  | .outputEOF => true
  | _ => false

/-- Recognizer for connection destruction. -/
def isDestroy : Action → Bool
  | .destroy => true
  | _ => false

/-- States reachable through the entry points of ctcp.c, starting from
ctcp_init on a live conn: any sequence of ctcp_read invocations with
well-formed conn_input results, inbound segments through ctcp_receive,
ctcp_output drains, and timer sweeps the connection survives. -/
inductive Reach : ctcp_state → Prop where
  | init : ∀ cfg st, ctcp_init false cfg = some st → Reach st
  | read : ∀ st ins now, Reach st → (∀ ev ∈ ins, ev.wf) →
      Reach (ctcp_read st ins now).1
  | recv : ∀ st seg len st2, Reach st → (ctcp_receive st seg len).1 = some st2 →
      Reach st2
  | output : ∀ st, Reach st → Reach (ctcp_output st).1
  | timer : ∀ st maxXmits now st2, Reach st →
      (ctcp_timer_conn maxXmits now st).1 = some st2 → Reach st2

/-!  Concrete connections and segments used by the scenario theorems. -/

/-- A two-segment-window configuration. -/
def cfg2 : ctcp_config := { send_window := 2, recv_window := 2, rt_timeout := 100 }

/-- The state ctcp_init builds from cfg2: fresh counters, empty queue. -/
def stFresh : ctcp_state :=
  { seqno := 1, ackno := 0, send_base := 1, recv_base := 1,
    send_window := 2880, recv_window := 2880, rt_timeout := 100,
    retransmit_count := 0, last_sent_time := 0, segments := [] }

/-- A fresh connection whose send window is a single segment. -/
def stWin1 : ctcp_state := { stFresh with send_window := MAX_SEG_DATA_SIZE }

/-- Two conn_input results: one byte, then a full buffer. -/
def insOver : List InputEvent :=
  [InputEvent.chunk [7], InputEvent.chunk (List.replicate MAX_SEG_DATA_SIZE 7)]

/-- A two-byte data segment covering stream bytes 1 and 2. -/
def sA : ctcp_segment :=
  { seqno := 1, ackno := 0, len := HDR + 2, flags := 0, window := 0, data := [1, 2] }

/-- A two-byte data segment covering stream bytes 3 and 4. -/
def sB : ctcp_segment :=
  { seqno := 3, ackno := 0, len := HDR + 2, flags := 0, window := 0, data := [3, 4] }

/-- A 100-byte data segment covering stream bytes 1 to 100. -/
def sPart : ctcp_segment :=
  { seqno := 1, ackno := 0, len := HDR + 100, flags := 0, window := 0,
    data := List.replicate 100 5 }

/-- An out-of-order ten-byte payload segment at seqno 500. -/
def sOO : ctcp_segment :=
  { seqno := 500, ackno := 0, len := HDR + 10, flags := 0, window := 0,
    data := List.replicate 10 7 }

/-- An in-order two-byte payload segment at seqno 1. -/
def sDup : ctcp_segment :=
  { seqno := 1, ackno := 0, len := HDR + 2, flags := 0, window := 0, data := [10, 11] }

/-- A FIN segment arriving out of order, at seqno 999. -/
def sFin999 : ctcp_segment :=
  { seqno := 999, ackno := 0, len := HDR, flags := TH_FIN, window := 0, data := [] }

/-- A pure ACK segment with ackno 50, cutting segment sPart in half. -/
def ackSeg50 : ctcp_segment :=
  { seqno := 0, ackno := 50, len := HDR, flags := TH_ACK, window := 0, data := [] }

/-- A connection with the single 100-byte segment sPart in flight. -/
def stPart : ctcp_state := { stFresh with segments := [sPart] }

/-- A connection with sA and sB in flight, one retransmission away from
the limit MAX_NUM_XMITS = 5, last sent at time 0. -/
def stRexmit : ctcp_state :=
  { stFresh with segments := [sA, sB], retransmit_count := 4 }

/-- The same connection with a negative configured rt_timeout, making
every examined node due. -/
def stRexmitNeg : ctcp_state := { stRexmit with rt_timeout := -1 }

/-- A connection with sA and sB in flight, both sent at time 0, no
retransmissions yet. -/
def stTwo : ctcp_state := { stFresh with segments := [sA, sB] }

/-- The zero-window configuration. -/
def cfgZero : ctcp_config := { send_window := 0, recv_window := 0, rt_timeout := 100 }

/-- The state ctcp_init builds from the zero-window configuration. -/
def stZero : ctcp_state :=
  { seqno := 1, ackno := 0, send_base := 1, recv_base := 1,
    send_window := 0, recv_window := 0, rt_timeout := 100,
    retransmit_count := 0, last_sent_time := 0, segments := [] }

/-- A well-formed segment for the codec round trip. -/
def segW7 : ctcp_segment :=
  { seqno := 1, ackno := 2, len := 17, flags := 16, window := 3, data := [42, 43] }

/-- The wire encoding of segW7 with one payload byte corrupted. -/
def badW7 : List Nat := (encode segW7).set 15 99

/-!  Helper lemmas about the embedded operations. -/

/-- When the shared connection clock is not due, the sweep of one
connection retransmits nothing and leaves the state unchanged. -/
theorem timer_go_not_due (maxXmits : Nat) (now : Int) (st : ctcp_state)
    (segs : List ctcp_segment) (h : ¬ st.rt_timeout < now - st.last_sent_time) :
    timer_go maxXmits now st segs = (st, []) := by
  induction segs with
  | nil => rfl
  | cons s rest ih => simp [timer_go, h, ih]

/-- Every conn_send the sweep emits carries a segment of the traversed
queue. -/
theorem timer_go_send_mem (maxXmits : Nat) (now : Int) (st : ctcp_state)
    (segs : List ctcp_segment) (s : ctcp_segment)
    (h : Action.send s ∈ (timer_go maxXmits now st segs).2) : s ∈ segs := by
  induction segs generalizing st with
  | nil => simp [timer_go] at h
  | cons x rest ih =>
    obtain ⟨q1, q2, q3, q4, q5, q6, q7, q8, q9, q10⟩ := st
    simp only [timer_go] at h
    by_cases hd : q7 < now - q9
    · rw [if_pos hd] at h
      rw [List.mem_cons] at h
      rcases h with h1 | h2
      · have hx : s = x := by
          simpa only [Action.send.injEq] using h1
        exact hx ▸ List.mem_cons_self x rest
      · by_cases hm : maxXmits ≤ q8 + 1
        · rw [if_pos hm] at h2
          simp only [ctcp_destroy, List.cons_append, List.nil_append, List.mem_cons] at h2
          rcases h2 with h3 | h3
          · exact absurd h3 (by simp)
          · exact List.mem_cons_of_mem x (ih _ h3)
        · rw [if_neg hm] at h2
          exact List.mem_cons_of_mem x (ih _ h2)
    · rw [if_neg hd] at h
      exact List.mem_cons_of_mem x (ih _ h)

/-- The sweep never touches the stored segment list. -/
theorem timer_go_segments (maxXmits : Nat) (now : Int) (st : ctcp_state)
    (segs : List ctcp_segment) :
    (timer_go maxXmits now st segs).1.segments = st.segments := by
  induction segs generalizing st with
  | nil => rfl
  | cons x rest ih =>
    simp only [timer_go]
    by_cases hd : st.rt_timeout < now - st.last_sent_time
    · simp only [if_pos hd]
      exact ih _
    · simp only [if_neg hd]
      exact ih _

/-- Pruning only removes segments. -/
theorem prune_subset (a : Nat) (l : List ctcp_segment) (s : ctcp_segment)
    (h : s ∈ prune a l) : s ∈ l := by
  induction l with
  | nil => simp [prune] at h
  | cons x rest ih =>
    simp only [prune] at h
    by_cases hx : x.seqno < a
    · simp only [if_pos hx] at h
      exact List.mem_cons_of_mem x (ih h)
    · simpa only [if_neg hx] using h

/-- On a queue sorted by seqno, every segment surviving the pruning loop
has seqno at least the ackno. -/
theorem prune_bound (a : Nat) (l : List ctcp_segment)
    (hs : l.Pairwise (fun x y => x.seqno ≤ y.seqno)) :
    ∀ s ∈ prune a l, a ≤ s.seqno := by
  induction l with
  | nil => simp [prune]
  | cons x rest ih =>
    rcases List.pairwise_cons.mp hs with ⟨hx, hrest⟩
    intro s hmem
    simp only [prune] at hmem
    by_cases hlt : x.seqno < a
    · exact ih hrest s (by simpa only [if_pos hlt] using hmem)
    · rcases List.mem_cons.mp (by simpa only [if_neg hlt] using hmem) with h1 | h2
      · subst h1; omega
      · exact le_trans (by omega) (hx s h2)

/-- On a queue sorted by seqno, the pruning loop removes exactly the
segments whose seqno is below the ackno. -/
theorem prune_eq_filter (a : Nat) (l : List ctcp_segment)
    (hs : l.Pairwise (fun x y => x.seqno ≤ y.seqno)) :
    prune a l = l.filter (fun s => decide (a ≤ s.seqno)) := by
  induction l with
  | nil => rfl
  | cons x rest ih =>
    rcases List.pairwise_cons.mp hs with ⟨hx, hrest⟩
    simp only [prune, List.filter_cons]
    by_cases hlt : x.seqno < a
    · have hfalse : (decide (a ≤ x.seqno)) = false := by simp; omega
      simp only [if_pos hlt, hfalse, Bool.false_eq_true, ite_false]
      exact ih hrest
    · have hax : a ≤ x.seqno := by omega
      have htrue : (decide (a ≤ x.seqno)) = true := by simpa using hax
      simp only [if_neg hlt, htrue, ite_true]
      have hkeep : rest.filter (fun s => decide (a ≤ s.seqno)) = rest :=
        List.filter_eq_self.mpr (fun s hsmem => by
          simpa using le_trans hax (hx s hsmem))
      rw [hkeep]

/-- ctcp_read never changes send_base or send_window and never decreases
seqno. -/
theorem ctcp_read_core (ins : List InputEvent) (st : ctcp_state) (now : Int) :
    (ctcp_read st ins now).1.send_base = st.send_base ∧
    (ctcp_read st ins now).1.send_window = st.send_window ∧
    st.seqno ≤ (ctcp_read st ins now).1.seqno := by
  induction ins generalizing st with
  | nil => exact ⟨rfl, rfl, le_refl _⟩
  | cons ev rest ih =>
    by_cases hg : st.seqno < st.send_base + st.send_window
    · cases ev with
      | wouldBlock => simp [ctcp_read, hg]
      | eof => simp [ctcp_read, hg]
      | chunk b =>
        simp only [ctcp_read, if_pos hg]
        refine ⟨(ih _).1, (ih _).2.1, ?_⟩
        refine le_trans ?_ ((ih _).2.2)
        exact Nat.le_add_right _ _
    · cases ev <;> simp [ctcp_read, hg]

/-- Across one ctcp_read invocation with well-formed conn_input results,
seqno stays below send_base + send_window + MAX_SEG_DATA_SIZE. -/
theorem ctcp_read_seqno_lt (ins : List InputEvent) (st : ctcp_state) (now : Int)
    (hwf : ∀ ev ∈ ins, ev.wf)
    (h : st.seqno < st.send_base + st.send_window + MAX_SEG_DATA_SIZE) :
    (ctcp_read st ins now).1.seqno < st.send_base + st.send_window + MAX_SEG_DATA_SIZE := by
  induction ins generalizing st with
  | nil => exact h
  | cons ev rest ih =>
    have hwfrest : ∀ e ∈ rest, e.wf := fun e he => hwf e (List.mem_cons_of_mem _ he)
    by_cases hg : st.seqno < st.send_base + st.send_window
    · cases ev with
      | wouldBlock => simpa [ctcp_read, hg] using h
      | eof =>
        simp only [ctcp_read, if_pos hg]
        show st.seqno + 1 < st.send_base + st.send_window + MAX_SEG_DATA_SIZE
        have hm : 0 < MAX_SEG_DATA_SIZE := by decide
        omega
      | chunk b =>
        have hb : b.length ≤ MAX_SEG_DATA_SIZE := (hwf _ (List.mem_cons_self _ _)).2
        simp only [ctcp_read, if_pos hg]
        exact ih _ hwfrest (by
          show st.seqno + b.length < st.send_base + st.send_window + MAX_SEG_DATA_SIZE
          omega)
    · cases ev <;> simpa [ctcp_read, hg] using h

/-- ctcp_read only ever appends segments with a clear FIN bit and a
nonempty payload to the segment list. -/
theorem ctcp_read_queue (ins : List InputEvent) (st : ctcp_state) (now : Int)
    (hwf : ∀ ev ∈ ins, ev.wf)
    (hq : ∀ s ∈ st.segments, s.flags &&& TH_FIN = 0 ∧ HDR < s.len) :
    ∀ s ∈ (ctcp_read st ins now).1.segments, s.flags &&& TH_FIN = 0 ∧ HDR < s.len := by
  induction ins generalizing st with
  | nil => exact hq
  | cons ev rest ih =>
    have hwfrest : ∀ e ∈ rest, e.wf := fun e he => hwf e (List.mem_cons_of_mem _ he)
    by_cases hg : st.seqno < st.send_base + st.send_window
    · cases ev with
      | wouldBlock => simpa [ctcp_read, hg] using hq
      | eof => simpa [ctcp_read, hg] using hq
      | chunk b =>
        have hb : b ≠ [] := (hwf _ (List.mem_cons_self _ _)).1
        simp only [ctcp_read, if_pos hg]
        refine ih _ hwfrest ?_
        intro s hs
        rcases List.mem_append.mp hs with h1 | h2
        · exact hq s h1
        · have hseq := List.mem_singleton.mp h2
          subst hseq
          constructor
          · show (0 : Nat) &&& TH_FIN = 0
            decide
          · have hpos : 0 < b.length := List.length_pos.mpr hb
            show HDR < HDR + b.length
            omega
    · cases ev <;> simpa [ctcp_read, hg] using hq

/-- When ctcp_receive leaves the connection alive, the surviving segment
list is a sub-collection of the previous one. -/
theorem ctcp_receive_some_subset (st : ctcp_state) (seg : ctcp_segment) (len : Nat)
    (st2 : ctcp_state) (h : (ctcp_receive st seg len).1 = some st2) :
    ∀ s ∈ st2.segments, s ∈ st.segments := by
  by_cases hf : seg.flags &&& TH_FIN = 0
  · by_cases ha : seg.flags &&& TH_ACK = 0
    · simp [ctcp_receive, hf, ha] at h
      subst h
      exact fun s hs => hs
    · by_cases hgt : st.send_base < seg.ackno
      · simp [ctcp_receive, hf, ha, hgt] at h
        subst h
        intro s hs
        exact prune_subset _ _ _ hs
      · simp [ctcp_receive, hf, ha, hgt] at h
        subst h
        exact fun s hs => hs
  · simp [ctcp_receive, hf] at h

/-- The drain loop only removes segments. -/
theorem ctcp_output_go_subset (rb : Nat) (segs : List ctcp_segment) :
    ∀ s ∈ (ctcp_output_go rb segs).1, s ∈ segs := by
  induction segs generalizing rb with
  | nil => simp [ctcp_output_go]
  | cons x rest ih =>
    by_cases he : x.seqno = rb
    · simp only [ctcp_output_go, if_pos he]
      intro s hs
      exact List.mem_cons_of_mem _ (ih _ s hs)
    · simp only [ctcp_output_go, if_neg he]
      exact fun s hs => hs

/-- ctcp_output only removes segments from the connection list. -/
theorem ctcp_output_subset (st : ctcp_state) :
    ∀ s ∈ (ctcp_output st).1.segments, s ∈ st.segments := by
  unfold ctcp_output
  exact ctcp_output_go_subset st.recv_base st.segments

/-- C1: the claim says a payload segment is delivered only at
seqno = recv_next, buffered when above it and discarded when below it, so
the sink sees the stream exactly once and in order.  The code instead
writes every payload to the sink unconditionally: the out-of-order segment
sOO (seqno 500, recv_next 1) is output immediately rather than buffered,
and the in-order segment sDup is output while the state is returned
unchanged, so the identical duplicate arrival outputs the same bytes a
second time. -/
theorem fv_C1 :
    (ctcp_receive stFresh sOO (HDR + 10) =
      (some stFresh,
       [Action.output (List.replicate 10 7),
        Action.send { seqno := 0, ackno := 510, len := HDR, flags := TH_ACK, window := 0, data := [] }])) ∧
    sOO.seqno = 500 ∧ stFresh.recv_base = 1 ∧ (500 : Nat) ≠ 1 ∧
    (ctcp_receive stFresh sDup (HDR + 2) =
      (some stFresh,
       [Action.output [10, 11],
        Action.send { seqno := 0, ackno := 3, len := HDR, flags := TH_ACK, window := 0, data := [] }])) ∧
    ((ctcp_receive stFresh sDup (HDR + 2)).2 ++
      (ctcp_receive stFresh sDup (HDR + 2)).2).countP isOutput = 2 :=
  ⟨rfl, rfl, rfl, by decide, rfl, by decide⟩

/-- C2 (amended): after every ctcp_read invocation with well-formed
conn_input results, send_base is unchanged and
send_base ≤ next_seqno < send_base + send_window_bytes + MAX_SEG_DATA_SIZE,
provided those bounds held before the call; the strict window invariant of
the claim fails because a read takes a full buffer regardless of the
remaining window room. -/
theorem fv_C2 (st : ctcp_state) (ins : List InputEvent) (now : Int)
    (hwf : ∀ ev ∈ ins, ev.wf)
    (h1 : st.send_base ≤ st.seqno)
    (h2 : st.seqno < st.send_base + st.send_window + MAX_SEG_DATA_SIZE) :
    (ctcp_read st ins now).1.send_base = st.send_base ∧
    (ctcp_read st ins now).1.send_base ≤ (ctcp_read st ins now).1.seqno ∧
    (ctcp_read st ins now).1.seqno <
      (ctcp_read st ins now).1.send_base + (ctcp_read st ins now).1.send_window +
        MAX_SEG_DATA_SIZE := by
  obtain ⟨hb, hw, hle⟩ := ctcp_read_core ins st now
  have hlt := ctcp_read_seqno_lt ins st now hwf h2
  rw [hb, hw]
  exact ⟨rfl, le_trans h1 hle, hlt⟩

/-- C2 witness: the amended invariant evaluated on a fresh connection
reading one two-byte chunk. -/
theorem fv_C2_witness :
    (ctcp_read stFresh [InputEvent.chunk [1, 2]] 0).1.send_base = stFresh.send_base ∧
    (ctcp_read stFresh [InputEvent.chunk [1, 2]] 0).1.send_base ≤
      (ctcp_read stFresh [InputEvent.chunk [1, 2]] 0).1.seqno ∧
    (ctcp_read stFresh [InputEvent.chunk [1, 2]] 0).1.seqno <
      (ctcp_read stFresh [InputEvent.chunk [1, 2]] 0).1.send_base +
        (ctcp_read stFresh [InputEvent.chunk [1, 2]] 0).1.send_window +
        MAX_SEG_DATA_SIZE :=
  fv_C2 stFresh [InputEvent.chunk [1, 2]] 0 (by decide) (by decide) (by decide)

/-- C2 counterexample: with a one-segment window (room 1 to 1440), a
one-byte read followed by a full 1440-byte read leaves next_seqno at 1442,
above send_base + send_window_bytes = 1441, refuting the claimed
invariant next_seqno ≤ send_base + send_window_bytes. -/
theorem fv_C2_cex :
    stWin1.send_base + stWin1.send_window = 1441 ∧
    (∀ ev ∈ insOver, ev.wf) ∧
    (ctcp_read stWin1 insOver 0).1.send_base = 1 ∧
    (ctcp_read stWin1 insOver 0).1.send_window = 1440 ∧
    (ctcp_read stWin1 insOver 0).1.seqno = 1442 ∧
    ¬ ((1442 : Nat) ≤ 1441) :=
  ⟨rfl, by decide, rfl, rfl, rfl, by decide⟩

/-- C3 (amended): an ACK with ackno > send_base advances send_base to
ackno and removes exactly the segments with seqno < ackno (on the
seqno-sorted queue this is the leading run), keeping precisely those with
seqno ≥ ackno; a segment only partly covered by the ackno is removed
whole, not kept as the claim states. -/
theorem fv_C3 (st : ctcp_state) (seg : ctcp_segment) (len : Nat)
    (hack : seg.flags &&& TH_ACK ≠ 0)
    (hnofin : seg.flags &&& TH_FIN = 0)
    (hgt : st.send_base < seg.ackno)
    (hsort : st.segments.Pairwise (fun x y => x.seqno ≤ y.seqno)) :
    (ctcp_receive st seg len).1 =
      some { st with send_base := seg.ackno,
                     segments := prune seg.ackno st.segments } ∧
    prune seg.ackno st.segments =
      st.segments.filter (fun s => decide (seg.ackno ≤ s.seqno)) ∧
    (∀ s ∈ prune seg.ackno st.segments, seg.ackno ≤ s.seqno ∧ s ∈ st.segments) := by
  refine ⟨?_, prune_eq_filter _ _ hsort,
    fun s hs => ⟨prune_bound _ _ hsort s hs, prune_subset _ _ _ hs⟩⟩
  simp [ctcp_receive, hnofin, hack, hgt]

/-- C3 witness: the amended ACK processing evaluated on a connection
with two in-flight segments and ackno 50. -/
theorem fv_C3_witness :
    (ctcp_receive stTwo ackSeg50 HDR).1 =
      some { stTwo with send_base := ackSeg50.ackno,
                        segments := prune ackSeg50.ackno stTwo.segments } ∧
    prune ackSeg50.ackno stTwo.segments =
      stTwo.segments.filter (fun s => decide (ackSeg50.ackno ≤ s.seqno)) ∧
    (∀ s ∈ prune ackSeg50.ackno stTwo.segments,
      ackSeg50.ackno ≤ s.seqno ∧ s ∈ stTwo.segments) :=
  fv_C3 stTwo ackSeg50 HDR (by decide) (by decide) (by decide) (by decide)

/-- C3 counterexample: segment sPart covers bytes 1 to 100, the ACK
carries ackno 50, so seqno + payload_length = 101 > 50 and the claim says
sPart stays queued; the code removes it, leaving the queue empty. -/
theorem fv_C3_cex :
    stPart.segments = [sPart] ∧
    sPart.seqno + (sPart.len - HDR) = 101 ∧
    ackSeg50.ackno = 50 ∧
    (ctcp_receive stPart ackSeg50 HDR).1 =
      some { stPart with send_base := 50, segments := [] } ∧
    ¬ (sPart.seqno + (sPart.len - HDR) ≤ 50) :=
  ⟨rfl, rfl, rfl, rfl, by decide⟩

/-- C9 (amended): ctcp_init rejects only a NULL conn; any configuration,
including a zero send or receive window, is accepted and produces a
connection whose windows are the configured segment counts times
MAX_SEG_DATA_SIZE. -/
theorem fv_C9 (cfg : ctcp_config) :
    ctcp_init true cfg = none ∧
    ctcp_init false cfg =
      some { seqno := 1, ackno := 0, send_base := 1, recv_base := 1,
             send_window := cfg.send_window * MAX_SEG_DATA_SIZE,
             recv_window := cfg.recv_window * MAX_SEG_DATA_SIZE,
             rt_timeout := cfg.rt_timeout, retransmit_count := 0,
             last_sent_time := 0, segments := [] } :=
  ⟨rfl, rfl⟩

/-- C9 counterexample: the zero-window configuration is accepted at
creation time, yielding a live connection with zero-byte windows, where
the claim requires a failure return. -/
theorem fv_C9_cex :
    ctcp_init false cfgZero = some stZero ∧
    (ctcp_init false cfgZero).isSome = true ∧
    stZero.send_window = 0 ∧ stZero.recv_window = 0 :=
  ⟨rfl, rfl, rfl, rfl⟩




/-- C4: the claim says reaching MAX_RETRANSMITS destroys the connection
with exactly one end-of-input signal, after the queue iteration.  The
code: on the sweep of stRexmit (count 4 of 5, both segments long unsent),
the connection is destroyed with zero end-of-input signals (ctcp_destroy
performs none), the destroy is issued from inside the queue walk, and with
a negative configured rt_timeout the walk continues past the destruction,
resending sB on the freed connection and destroying it a second time. -/
theorem fv_C4 :
    stRexmit.retransmit_count = 4 ∧ stRexmit.segments = [sA, sB] ∧
    (200 : Int) - stRexmit.last_sent_time > stRexmit.rt_timeout ∧
    ctcp_timer_conn 5 200 stRexmit = (none, [Action.send sA, Action.destroy]) ∧
    Action.outputEOF ∉ (ctcp_timer_conn 5 200 stRexmit).2 ∧
    Action.outputEOF ∉ ctcp_destroy ∧
    ctcp_timer 5 200 [stRexmit] = ([], [Action.send sA, Action.destroy]) ∧
    ctcp_timer_conn 5 200 stRexmitNeg =
      (none, [Action.send sA, Action.destroy, Action.send sB, Action.destroy]) :=
  ⟨rfl, rfl, by decide, by decide, by decide, by decide, by decide, by decide⟩

/-- C5 (amended): the Receiver Path acts on an inbound FIN whatever its
seqno: it emits exactly one end-of-input signal and exactly one
destruction, unconditionally; there is no half_closed state and no check
that the local FIN was sent or acknowledged. -/
theorem fv_C5 (st : ctcp_state) (seg : ctcp_segment) (len : Nat)
    (hfin : seg.flags &&& TH_FIN ≠ 0) :
    (ctcp_receive st seg len).1 = none ∧
    ((ctcp_receive st seg len).2.countP isEOF) = 1 ∧
    ((ctcp_receive st seg len).2.countP isDestroy) = 1 := by
  by_cases hp : HDR < len <;>
    simp [ctcp_receive, hfin, hp, ctcp_destroy, isEOF, isDestroy,
      List.countP_append, List.countP_cons]

/-- C5 witness: the amended FIN handling evaluated on the out-of-order
FIN segment sFin999. -/
theorem fv_C5_witness :
    (ctcp_receive stFresh sFin999 HDR).1 = none ∧
    ((ctcp_receive stFresh sFin999 HDR).2.countP isEOF) = 1 ∧
    ((ctcp_receive stFresh sFin999 HDR).2.countP isDestroy) = 1 :=
  fv_C5 stFresh sFin999 HDR (by decide)

/-- C5 counterexample: a FIN at seqno 999 with recv_next 1 is acted on
anyway: the sink gets the end-of-input signal and the connection is
destroyed, where the claim requires the FIN to be held and the connection
kept. -/
theorem fv_C5_cex :
    sFin999.seqno = 999 ∧ stFresh.recv_base = 1 ∧ (999 : Nat) ≠ 1 ∧
    ctcp_receive stFresh sFin999 HDR = (none, [Action.outputEOF, Action.destroy]) :=
  ⟨rfl, rfl, by decide, rfl⟩

/-- C6 (amended): retransmission timing and retry state are
per-connection, not per-segment: with a nonnegative timeout and the retry
limit not yet reached, a tick retransmits exactly the first queued segment
exactly when now - last_sent_time exceeds rt_timeout, setting the shared
last_sent_time to now and incrementing the shared retransmit_count; when
the clock is not due, nothing is sent. -/
theorem fv_C6 (maxXmits : Nat) (now : Int) (st : ctcp_state)
    (s1 : ctcp_segment) (rest : List ctcp_segment)
    (hsegs : st.segments = s1 :: rest)
    (hto : 0 ≤ st.rt_timeout)
    (hmax : st.retransmit_count + 1 < maxXmits) :
    (st.rt_timeout < now - st.last_sent_time →
      ctcp_timer_conn maxXmits now st =
        (some { st with retransmit_count := st.retransmit_count + 1,
                        last_sent_time := now },
         [Action.send s1])) ∧
    (¬ st.rt_timeout < now - st.last_sent_time →
      ctcp_timer_conn maxXmits now st = (some st, [])) := by
  constructor
  · intro hdue
    have hnot : ¬ ({ st with retransmit_count := st.retransmit_count + 1,
                             last_sent_time := now } : ctcp_state).rt_timeout <
        now - ({ st with retransmit_count := st.retransmit_count + 1,
                         last_sent_time := now } : ctcp_state).last_sent_time := by
      show ¬ st.rt_timeout < now - now
      omega
    unfold ctcp_timer_conn
    rw [hsegs]
    simp only [timer_go, if_pos hdue, timer_go_not_due _ _ _ _ hnot]
    have hm2 : ¬ (maxXmits ≤ st.retransmit_count + 1) := by omega
    simp [hm2, hsegs]
  · intro hdue
    unfold ctcp_timer_conn
    rw [timer_go_not_due _ _ _ _ hdue]
    simp

/-- C6 witness: the amended sweep behavior evaluated on a connection
with two queued segments and an expired shared clock. -/
theorem fv_C6_witness :
    ctcp_timer_conn 5 200 stTwo =
      (some { stTwo with retransmit_count := stTwo.retransmit_count + 1,
                         last_sent_time := 200 },
       [Action.send sA]) :=
  (fv_C6 5 200 stTwo sA [sB] rfl (by decide) (by decide)).1 (by decide)

/-- C6 counterexample: sA and sB were both sent at time 0 and are both
overdue at time 200 with timeout 100, so the claim retransmits both; the
code sends only sA, and updates the single shared counter and timestamp
rather than per-segment fields. -/
theorem fv_C6_cex :
    stTwo.segments = [sA, sB] ∧ stTwo.last_sent_time = 0 ∧
    (200 : Int) - 0 > stTwo.rt_timeout ∧
    (ctcp_timer_conn 5 200 stTwo).2 = [Action.send sA] ∧
    Action.send sB ∉ (ctcp_timer_conn 5 200 stTwo).2 ∧
    (ctcp_timer_conn 5 200 stTwo).1 =
      some { stTwo with retransmit_count := 1, last_sent_time := 200 } :=
  ⟨rfl, rfl, by decide, by decide, by decide, by decide⟩

/-- C8 (amended): for every payload-carrying inbound segment the
Receiver Path emits exactly one ACK segment, but its ackno is the
arriving seqno plus the payload length, not recv_next, and its advertised
window field is left zero, not recv_window minus the buffered bytes. -/
theorem fv_C8 (st : ctcp_state) (seg : ctcp_segment) (len : Nat)
    (hlen : HDR < len) :
    (ctcp_receive st seg len).2.filter isSend =
      [Action.send { seqno := 0, ackno := seg.seqno + (len - HDR), len := HDR,
                     flags := TH_ACK, window := 0, data := [] }] ∧
    (ctcp_receive st seg len).2.countP isOutput = 1 := by
  by_cases hf : seg.flags &&& TH_FIN ≠ 0 <;>
    simp [ctcp_receive, hf, hlen, ctcp_destroy, isSend, isOutput,
      List.filter_append, List.filter_cons, List.countP_append, List.countP_cons]

/-- C8 witness: the amended ACK emission evaluated on the out-of-order
segment sOO. -/
theorem fv_C8_witness :
    (ctcp_receive stFresh sOO (HDR + 10)).2.filter isSend =
      [Action.send { seqno := 0, ackno := sOO.seqno + ((HDR + 10) - HDR),
                     len := HDR, flags := TH_ACK, window := 0, data := [] }] ∧
    (ctcp_receive stFresh sOO (HDR + 10)).2.countP isOutput = 1 :=
  fv_C8 stFresh sOO (HDR + 10) (by decide)

/-- C8 counterexample: for the out-of-order segment sOO (seqno 500, ten
bytes) the emitted ACK carries ackno 510 although recv_next is 1, and
window 0 although recv_window minus the zero buffered bytes is 2880,
refuting both parts of the claim. -/
theorem fv_C8_cex :
    (ctcp_receive stFresh sOO (HDR + 10)).2 =
      [Action.output (List.replicate 10 7),
       Action.send { seqno := 0, ackno := 510, len := HDR, flags := TH_ACK,
                     window := 0, data := [] }] ∧
    stFresh.recv_base = 1 ∧ (510 : Nat) ≠ 1 ∧
    stFresh.recv_window = 2880 ∧ (0 : Nat) ≠ 2880 :=
  ⟨rfl, rfl, by decide, rfl, by decide⟩

/-- Two big-endian bytes reconstruct any 16-bit value. -/
theorem from2_to2 (n : Nat) (h : n < 65536) : from2 (n / 256 % 256) (n % 256) = n := by
  unfold from2
  omega

/-- Four big-endian bytes reconstruct any 32-bit value. -/
theorem from4_to4 (n : Nat) (h : n < 4294967296) :
    from4 (n / 65536 / 256 % 256) (n / 65536 % 256) (n % 65536 / 256 % 256) (n % 65536 % 256) = n := by
  unfold from4 from2
  omega

/-- The checksum always fits 16 bits. -/
theorem cksum16_lt (bs : List Nat) : cksum16 bs < 65536 :=
  Nat.mod_lt _ (by norm_num)

/-- Decoding inverts encoding on well-formed segments. -/
theorem decode_encode (s : ctcp_segment) (h : s.wf) : decode (encode s) = Except.ok s := by
  obtain ⟨f1, f2, f3, f4, f5, f6⟩ := s
  obtain ⟨h1, h2, h3, h4, h5⟩ := h
  simp only [encode, encHdr0, to4, to2, List.cons_append, List.nil_append, List.append_assoc]
  simp only [decode]
  rw [from2_to2 _ (cksum16_lt _)]
  rw [if_neg (fun hne => hne rfl)]
  simp only [Except.ok.injEq, ctcp_segment.mk.injEq]
  exact ⟨from4_to4 _ h1, from4_to4 _ h2, from2_to2 _ h3, Nat.mod_eq_of_lt h4,
    from2_to2 _ h5, trivial⟩

/-- Buffers shorter than the 15-byte header are rejected as malformed. -/
theorem decode_short (bs : List Nat) (h : bs.length < 15) :
    decode bs = Except.error DecodeError.malformed := by
  rcases bs with _ | ⟨a0, bs⟩; · rfl
  rcases bs with _ | ⟨a1, bs⟩; · rfl
  rcases bs with _ | ⟨a2, bs⟩; · rfl
  rcases bs with _ | ⟨a3, bs⟩; · rfl
  rcases bs with _ | ⟨b0, bs⟩; · rfl
  rcases bs with _ | ⟨b1, bs⟩; · rfl
  rcases bs with _ | ⟨b2, bs⟩; · rfl
  rcases bs with _ | ⟨b3, bs⟩; · rfl
  rcases bs with _ | ⟨l0, bs⟩; · rfl
  rcases bs with _ | ⟨l1, bs⟩; · rfl
  rcases bs with _ | ⟨f, bs⟩; · rfl
  rcases bs with _ | ⟨w0, bs⟩; · rfl
  rcases bs with _ | ⟨w1, bs⟩; · rfl
  rcases bs with _ | ⟨c0, bs⟩; · rfl
  rcases bs with _ | ⟨c1, bs⟩; · rfl
  exfalso
  simp at h
  omega

/-- A buffer whose stored checksum differs from the checksum recomputed
over the same bytes with the checksum field zeroed is rejected. -/
theorem decode_bad_ck (bs : List Nat) (hlen : 15 ≤ bs.length)
    (hck : storedCk bs ≠ cksum16 (zeroCk bs)) :
    decode bs = Except.error DecodeError.checksum := by
  rcases bs with _ | ⟨a0, bs⟩; · simp at hlen
  rcases bs with _ | ⟨a1, bs⟩; · simp at hlen
  rcases bs with _ | ⟨a2, bs⟩; · simp at hlen
  rcases bs with _ | ⟨a3, bs⟩; · simp at hlen
  rcases bs with _ | ⟨b0, bs⟩; · simp at hlen
  rcases bs with _ | ⟨b1, bs⟩; · simp at hlen
  rcases bs with _ | ⟨b2, bs⟩; · simp at hlen
  rcases bs with _ | ⟨b3, bs⟩; · simp at hlen
  rcases bs with _ | ⟨l0, bs⟩; · simp at hlen
  rcases bs with _ | ⟨l1, bs⟩; · simp at hlen
  rcases bs with _ | ⟨f, bs⟩; · simp at hlen
  rcases bs with _ | ⟨w0, bs⟩; · simp at hlen
  rcases bs with _ | ⟨w1, bs⟩; · simp at hlen
  rcases bs with _ | ⟨c0, bs⟩; · simp at hlen
  rcases bs with _ | ⟨c1, bs⟩; · simp at hlen
  have hs : storedCk (a0 :: a1 :: a2 :: a3 :: b0 :: b1 :: b2 :: b3 :: l0 :: l1 :: f :: w0 :: w1 :: c0 :: c1 :: bs) = from2 c0 c1 := rfl
  have hz : zeroCk (a0 :: a1 :: a2 :: a3 :: b0 :: b1 :: b2 :: b3 :: l0 :: l1 :: f :: w0 :: w1 :: c0 :: c1 :: bs) = a0 :: a1 :: a2 :: a3 :: b0 :: b1 :: b2 :: b3 :: l0 :: l1 :: f :: w0 :: w1 :: 0 :: 0 :: bs := rfl
  rw [hs, hz] at hck
  simp only [decode]
  rw [if_pos hck]




/-- C7: decode(encode(s)) = s for every well-formed segment s, decode
rejects every buffer shorter than the header as malformed, and decode
rejects every buffer whose stored checksum does not match the checksum
recomputed over the same bytes with the checksum field zeroed. -/
theorem fv_C7 :
    (∀ s : ctcp_segment, s.wf → decode (encode s) = Except.ok s) ∧
    (∀ bs : List Nat, bs.length < 15 → decode bs = Except.error DecodeError.malformed) ∧
    (∀ bs : List Nat, 15 ≤ bs.length → storedCk bs ≠ cksum16 (zeroCk bs) →
      decode bs = Except.error DecodeError.checksum) :=
  ⟨decode_encode, decode_short, decode_bad_ck⟩

/-- C7 witness: the codec contract evaluated on the concrete segment
segW7, a three-byte buffer, and the corrupted encoding badW7. -/
theorem fv_C7_witness :
    decode (encode segW7) = Except.ok segW7 ∧
    decode [1, 2, 3] = Except.error DecodeError.malformed ∧
    decode badW7 = Except.error DecodeError.checksum :=
  ⟨fv_C7.1 segW7 (by decide),
   fv_C7.2.1 [1, 2, 3] (by decide),
   fv_C7.2.2 badW7 (by decide) (by decide)⟩

/-- C10: in every reachable connection state the retransmission queue
holds only data segments, each with the FIN bit clear and a nonempty
payload, and every segment the sweeper ever resends comes from that queue,
so it never carries FIN: the zero-payload FIN that ctcp_read transmits on
end-of-input is never enrolled and never retransmitted. -/
theorem fv_C10 (st : ctcp_state) (h : Reach st) :
    (∀ s ∈ st.segments, s.flags &&& TH_FIN = 0 ∧ HDR < s.len) ∧
    (∀ maxXmits : Nat, ∀ now : Int, ∀ s : ctcp_segment,
      Action.send s ∈ (ctcp_timer_conn maxXmits now st).2 → s.flags &&& TH_FIN = 0) := by
  have hq : ∀ s ∈ st.segments, s.flags &&& TH_FIN = 0 ∧ HDR < s.len := by
    induction h with
    | init cfg st0 hinit =>
      unfold ctcp_init at hinit
      simp at hinit
      subst hinit
      simp
    | read st0 ins now hr hwf ih => exact ctcp_read_queue ins st0 now hwf ih
    | recv st0 seg len st2 hr hsome ih =>
      intro s hs
      exact ih s (ctcp_receive_some_subset st0 seg len st2 hsome s hs)
    | output st0 hr ih =>
      intro s hs
      exact ih s (ctcp_output_subset st0 s hs)
    | timer st0 maxXmits now st2 hr hsome ih =>
      intro s hs
      unfold ctcp_timer_conn at hsome
      simp at hsome
      obtain ⟨hnd, heq⟩ := hsome
      subst heq
      rw [timer_go_segments] at hs
      exact ih s hs
  refine ⟨hq, ?_⟩
  intro maxXmits now s hsend
  have hmem : s ∈ st.segments := by
    apply timer_go_send_mem maxXmits now st st.segments s
    simpa [ctcp_timer_conn] using hsend
  exact (hq s hmem).1

/-- C10 witness: the invariant evaluated at the reachable state obtained
by ctcp_init followed by one ctcp_read of a two-byte chunk. -/
theorem fv_C10_witness :
    (∀ s ∈ (ctcp_read stFresh [InputEvent.chunk [1, 2]] 0).1.segments,
      s.flags &&& TH_FIN = 0 ∧ HDR < s.len) ∧
    (∀ maxXmits : Nat, ∀ now : Int, ∀ s : ctcp_segment,
      Action.send s ∈
        (ctcp_timer_conn maxXmits now (ctcp_read stFresh [InputEvent.chunk [1, 2]] 0).1).2 →
      s.flags &&& TH_FIN = 0) :=
  fv_C10 (ctcp_read stFresh [InputEvent.chunk [1, 2]] 0).1
    (Reach.read stFresh [InputEvent.chunk [1, 2]] 0
      (Reach.init cfg2 stFresh rfl) (by decide))

end CTCP
